import Mathlib

/-!
Verification of the book persistence and query subsystem of the
`innowise_laboratory` repository (`lecture_5/book_api/`): entity
validation (`models.py`, `schemas.py`), the repository CRUD operations
(`crud.py`) and the pagination arithmetic of the endpoints (`main.py`).

The store is the SQLite table of book rows; a `Store` value is the
*committed* state of that table.  Each CRUD operation is embedded as a
function from the committed state (plus its inputs) to the committed
state after the operation together with its result; a `ValueError`
raised inside an operation is modelled by the `Except`/error component,
and — because `crud.py` only calls `db.commit()` after all `setattr`
calls have succeeded, and `database.get_db` closes (hence rolls back)
the session on an exception — an operation that errors returns the
committed state unchanged.
-/

namespace BookApi

/-- A persisted row of the `books` table (`models.py`, class `Book`).
`year` is a nullable column, hence `Option Int`. -/
structure Book where
  id : Nat
  title : String
  author : String
  year : Option Int
deriving DecidableEq, Repr

/-- The field a validation error is attached to. -/
inductive FieldName where
  | title
  | author
  | year
deriving DecidableEq, Repr

/-- A field-identifying validation error (the `ValueError`s of
`models.py` / the per-field errors of the pydantic schemas). -/
structure ValidationError where
  field : FieldName
  msg : String
deriving DecidableEq, Repr

/-- Python's `str.strip()`: remove leading and trailing whitespace.
(Python's whitespace set is modelled by `Char.isWhitespace`.) -/
def pyStrip (s : String) : String :=
  ⟨((s.data.dropWhile Char.isWhitespace).reverse.dropWhile Char.isWhitespace).reverse⟩

/-- `models.py`, `Book.validate_title`: strip, reject empty, reject
length above 255, store the stripped value.  The pydantic
`BookBase`/`BookUpdate` constraints on `title`
(`str_strip_whitespace`, `min_length=1`, `max_length=255`) accept
exactly the same strings. -/
def validate_title (t : String) : Except ValidationError String :=
  if pyStrip t = "" then .error ⟨.title, "Book title cannot be empty"⟩
  else if (pyStrip t).length > 255 then
    .error ⟨.title, "Book title too long (max 255 characters)"⟩
  else .ok (pyStrip t)

/-- `models.py`, `Book.validate_author`: same checks as for `title`. -/
def validate_author (a : String) : Except ValidationError String :=
  if pyStrip a = "" then .error ⟨.author, "Author name cannot be empty"⟩
  else if (pyStrip a).length > 255 then
    .error ⟨.author, "Author name too long (max 255 characters)"⟩
  else .ok (pyStrip a)

/-- `models.py`, `Book.validate_year`: a present year must lie in
`[1000, currentYear + 2]`.  The current calendar year is passed in as
`cy`.  The pydantic bound (`ge=1000`, `le=datetime.now().year + 2`) is
the same check. -/
def validate_year (cy : Int) (y : Option Int) : Except ValidationError (Option Int) :=
  match y with
  | none => .ok none
  | some yr =>
    if yr < 1000 ∨ yr > cy + 2 then
      .error ⟨.year, "Year must be between 1000 and currentYear + 2"⟩
    else .ok (some yr)

/-- The committed state of the `books` table. -/
structure Store where
  rows : List Book
deriving DecidableEq, Repr

def Store.empty : Store := ⟨[]⟩

/-- SQLite id assignment for a rowid table (the `books` table is
declared `Integer primary_key autoincrement` *without* the SQLite
`AUTOINCREMENT` keyword, so the engine assigns
`max(existing rowid) + 1`, and `1` on an empty table). -/
def nextId (db : Store) : Nat :=
  (db.rows.foldl (fun m b => max m b.id) 0) + 1

/-- `crud.py`, `BookCRUD.get_book`: first row whose `id` matches. -/
def get_book (db : Store) (bid : Nat) : Option Book :=
  db.rows.find? (fun b => b.id == bid)

/-- The validation a new book's data passes on creation: the pydantic
`BookCreate` parse and the `models.py` validators perform the identical
checks, in the same field order `title`, `author`, `year`; the first
failing field raises. -/
def validate_new (cy : Int) (t a : String) (y : Option Int) :
    Except ValidationError (String × String × Option Int) := do
  let t' ← validate_title t
  let a' ← validate_author a
  let y' ← validate_year cy y
  pure (t', a', y')

/-- `crud.py`, `BookCRUD.create_book` composed with `validate_new`.  On
success the new row is committed with the next SQLite rowid; on a
validation error nothing is committed. -/
def create_book (cy : Int) (db : Store) (t a : String) (y : Option Int) :
    Store × Except ValidationError Book :=
  match validate_new cy t a y with
  | .error e => (db, .error e)
  | .ok (t', a', y') =>
    let b : Book := ⟨nextId db, t', a', y'⟩
    (⟨db.rows ++ [b]⟩, .ok b)

/-- `crud.py`, `BookCRUD.delete_book`: hard delete by id, `true` iff a
row existed. -/
def delete_book (db : Store) (bid : Nat) : Store × Bool :=
  match get_book db bid with
  | none => (db, false)
  | some _ => (⟨db.rows.filter (fun b => !(b.id == bid))⟩, true)

/-- One field of a `schemas.BookUpdate` patch.  pydantic's
`exclude_unset` semantics distinguishes a field that was never supplied
(`unset`) from one explicitly supplied as `null` (`setNone`) and from
one supplied with a value (`setVal`). -/
inductive PatchField (α : Type) where
  | unset
  | setNone
  | setVal (val : α)
deriving DecidableEq, Repr

/-- `schemas.py`, `BookUpdate`: all three fields optional. -/
structure BookUpdate where
  title : PatchField String
  author : PatchField String
  year : PatchField Int
deriving DecidableEq, Repr

/-- The pydantic parse of a `BookUpdate` body: a value supplied for a
field is validated (same constraints as `models.py`, see
`validate_title` etc.); `unset` and explicit `null` pass through. -/
def mkBookUpdate (cy : Int) (t : PatchField String) (a : PatchField String)
    (y : PatchField Int) : Except ValidationError BookUpdate := do
  let t' ← match t with
    | .setVal v => (validate_title v).map .setVal
    | .unset => pure PatchField.unset
    | .setNone => pure PatchField.setNone
  let a' ← match a with
    | .setVal v => (validate_author v).map .setVal
    | .unset => pure PatchField.unset
    | .setNone => pure PatchField.setNone
  let y' ← match y with
    | .setVal v => (validate_year cy (some v)).map (fun _ => PatchField.setVal v)
    | .unset => pure PatchField.unset
    | .setNone => pure PatchField.setNone
  pure ⟨t', a', y'⟩

/-- One iteration of the `setattr` loop of `crud.py`,
`BookCRUD.update_book`, for the `title` entry of
`book_update.dict(exclude_unset=True)`: an entry that is absent
(`unset`) or whose value is `None` (`if value is not None`) is skipped;
a present value goes through the `models.py` validator that its
`setattr` triggers. -/
def set_title_step (b : Book) : PatchField String → Except ValidationError Book
  | .setVal v => (validate_title v).map (fun t => { b with title := t })
  | _ => .ok b

/-- The loop iteration for the `author` entry; see `set_title_step`. -/
def set_author_step (b : Book) : PatchField String → Except ValidationError Book
  | .setVal v => (validate_author v).map (fun a => { b with author := a })
  | _ => .ok b

/-- The loop iteration for the `year` entry; see `set_title_step`. -/
def set_year_step (cy : Int) (b : Book) : PatchField Int → Except ValidationError Book
  | .setVal v => (validate_year cy (some v)).map (fun y => { b with year := y })
  | _ => .ok b

/-- The whole `setattr` loop of `crud.py`, `BookCRUD.update_book`: the
supplied fields are iterated in declaration order (`title`, `author`,
`year`); a raised `ValueError` aborts the loop. -/
def apply_patch (cy : Int) (b : Book) (p : BookUpdate) : Except ValidationError Book := do
  let b ← set_title_step b p.title
  let b ← set_author_step b p.author
  let b ← set_year_step cy b p.year
  pure b

/-- `crud.py`, `BookCRUD.update_book`: load the row (`None` result when
absent), apply the patch loop, and commit only when every `setattr`
succeeded; a `ValueError` leaves the committed state unchanged (the
session is rolled back by `get_db`'s `close`). -/
def update_book (cy : Int) (db : Store) (bid : Nat) (p : BookUpdate) :
    Store × Except ValidationError (Option Book) :=
  match get_book db bid with
  | none => (db, .ok none)
  | some b =>
    match apply_patch cy b p with
    | .error e => (db, .error e)
    | .ok b' =>
      (⟨db.rows.map (fun c => if c.id == bid then b' else c)⟩, .ok (some b'))

/-- The full update path of the API (`main.py` `update_book` endpoint):
pydantic parses the body into a `BookUpdate` (a 422 validation error
reaches no database code), then `crud.update_book` runs. -/
def update_endpoint (cy : Int) (db : Store) (bid : Nat) (t : PatchField String)
    (a : PatchField String) (y : PatchField Int) :
    Store × Except ValidationError (Option Book) :=
  match mkBookUpdate cy t a y with
  | .error e => (db, .error e)
  | .ok p => update_book cy db bid p

/-- The `ORDER BY id` of the listing and search queries. -/
def byId : Book → Book → Prop := fun a b => a.id ≤ b.id

instance : DecidableRel byId := fun a b => Nat.decLe a.id b.id

instance : IsTotal Book byId := ⟨fun a b => Nat.le_total a.id b.id⟩

instance : IsTrans Book byId := ⟨fun _ _ _ h h' => Nat.le_trans h h'⟩

def sortById (rows : List Book) : List Book := List.insertionSort byId rows

/-- `crud.py`, `BookCRUD.get_books`: `total` is the unfiltered row
count; the items are the rows ordered by ascending id, offset by `skip`
and bounded by `limit`. -/
def get_books (db : Store) (skip limit : Nat) : List Book × Nat :=
  (((sortById db.rows).drop skip).take limit, db.rows.length)

/-- `main.py`, `get_books` endpoint, line 136:
`total_pages = (total + page_size - 1) // page_size`. -/
def total_pages_list (total page_size : Nat) : Nat :=
  (total + page_size - 1) / page_size

/-- `main.py`, `search_books` endpoint, line 303:
`total_pages = (total + page_size - 1) // page_size if total > 0 else 0`. -/
def total_pages_search (total page_size : Nat) : Nat :=
  if total > 0 then (total + page_size - 1) / page_size else 0

/-- The ASCII uppercase-to-lowercase table that SQLite's `lower()` (and
its `LIKE` case folding) applies; characters outside it are left
unchanged. -/
def upperToLower : List (Char × Char) :=
  [('A', 'a'), ('B', 'b'), ('C', 'c'), ('D', 'd'), ('E', 'e'), ('F', 'f'),
   ('G', 'g'), ('H', 'h'), ('I', 'i'), ('J', 'j'), ('K', 'k'), ('L', 'l'),
   ('M', 'm'), ('N', 'n'), ('O', 'o'), ('P', 'p'), ('Q', 'q'), ('R', 'r'),
   ('S', 's'), ('T', 't'), ('U', 'u'), ('V', 'v'), ('W', 'w'), ('X', 'x'),
   ('Y', 'y'), ('Z', 'z')]

/-- SQLite's `lower()`: fold the 26 ASCII uppercase letters only. -/
def asciiLower (c : Char) : Char :=
  match upperToLower.find? (fun p => p.1 == c) with
  | some p => p.2
  | none => c

def lowerL (cs : List Char) : List Char := cs.map asciiLower

/-- Match a `LIKE` pattern continuation `f` against every suffix of the
text, as a `%` wildcard does. -/
def starMatch (f : List Char → Bool) : List Char → Bool
  | [] => f []
  | c :: cs => f (c :: cs) || starMatch f cs

/-- SQL `LIKE` pattern matching: `%` matches any (possibly empty)
sequence, `_` matches exactly one character, anything else matches
itself.  `.ilike` carries no ESCAPE clause here, so every `%`/`_` of
the pattern is a wildcard. -/
def likeMatch : List Char → List Char → Bool
  | [], t => t.isEmpty
  | p :: ps, t =>
    if p = '%' then starMatch (likeMatch ps) t
    else if p = '_' then
      match t with
      | [] => false
      | _ :: cs => likeMatch ps cs
    else
      match t with
      | [] => false
      | c :: cs => (p == c) && likeMatch ps cs

/-- The filter SQLAlchemy emits for
`Book.title.ilike(f"%{q}%")` on SQLite:
`lower(column) LIKE lower('%' + q + '%')`. -/
def ilikeContains (crit field : String) : Bool :=
  likeMatch (lowerL ('%' :: crit.data ++ ['%'])) (lowerL field.data)

/-- `schemas.py`, `SearchQuery`. -/
structure SearchQuery where
  title : Option String := none
  author : Option String := none
  year : Option Int := none
  year_from : Option Int := none
  year_to : Option Int := none
  page : Nat := 1
  page_size : Nat := 10
deriving DecidableEq, Repr

/-- The pydantic field constraints of `schemas.SearchQuery`:
`year_from` carries `ge=1000`, `page` carries `ge=1`, `page_size`
carries `ge=1, le=100`; `title`, `author`, `year` and `year_to` are
unconstrained. -/
def SearchQuery.Valid (q : SearchQuery) : Prop :=
  (∀ v, q.year_from = some v → 1000 ≤ v) ∧
  1 ≤ q.page ∧ 1 ≤ q.page_size ∧ q.page_size ≤ 100

/-- Python truthiness of an `Optional[str]`: `None` and `""` are falsy. -/
def truthyStr : Option String → Bool
  | none => false
  | some s => !(s == "")

/-- Python truthiness of an `Optional[int]`: `None` and `0` are falsy. -/
def truthyInt : Option Int → Bool
  | none => false
  | some n => !(n == 0)

/-- The conjunction of the filters `crud.py`, `BookCRUD.search_books`
builds (lines 149–171), including the Python truthiness tests of each
`if search_query.xxx:` guard.  A SQL comparison of the nullable `year`
column with `NULL` stored yields `NULL`, which does not match. -/
def matchesFilters (q : SearchQuery) (b : Book) : Bool :=
  (if truthyStr q.title then ilikeContains (q.title.getD "") b.title else true) &&
  (if truthyStr q.author then ilikeContains (q.author.getD "") b.author else true) &&
  (if truthyInt q.year then b.year == some (q.year.getD 0) else true) &&
  (if truthyInt q.year_from && truthyInt q.year_to then
    (match b.year with
     | some y => decide (q.year_from.getD 0 ≤ y) && decide (y ≤ q.year_to.getD 0)
     | none => false)
  else if truthyInt q.year_from then
    (match b.year with
     | some y => decide (q.year_from.getD 0 ≤ y)
     | none => false)
  else if truthyInt q.year_to then
    (match b.year with
     | some y => decide (y ≤ q.year_to.getD 0)
     | none => false)
  else true)

/-- `crud.py`, `BookCRUD.search_books`: filter, count the full match
set, then window the id-ordered matches by
`skip = (page - 1) * page_size` and `limit = page_size`. -/
def search_books (db : Store) (q : SearchQuery) : List Book × Nat :=
  let filtered := db.rows.filter (matchesFilters q)
  let total := filtered.length
  let skip := (q.page - 1) * q.page_size
  (((sortById filtered).drop skip).take q.page_size, total)

/-- A request against the mutating part of the repository, for
reasoning about id assignment across create/delete histories. -/
inductive Op where
  | create (t a : String) (y : Option Int)
  | delete (bid : Nat)
deriving DecidableEq, Repr

/-- Run a sequence of creates and deletes from a given committed state,
collecting the ids assigned to the successfully created books in
order. -/
def runOps (cy : Int) : Store → List Op → Store × List Nat
  | db, [] => (db, [])
  | db, .create t a y :: ops =>
    match create_book cy db t a y with
    | (db', .ok b) =>
      let r := runOps cy db' ops
      (r.1, b.id :: r.2)
    | (db', .error _) => runOps cy db' ops
  | db, .delete bid :: ops => runOps cy (delete_book db bid).1 ops

/-- Literal matching of `n` against an initial segment of `s`, used to
state what a wildcard-free `LIKE` pattern does. -/
def leadsWith : List Char → List Char → Bool
  | [], _ => true
  | _ :: _, [] => false
  | n :: ns, c :: cs => (n == c) && leadsWith ns cs

/-- Modelled from the spec (§4.3): the composition of the year search
criteria as the specification words them — an exact `year` must match
exactly when given; with both `year_from` and `year_to` the stored year
must satisfy `year_from ≤ year ≤ year_to`; with only `year_from`,
`year ≥ year_from`; with only `year_to`, `year ≤ year_to`; all ANDed.
This is the spec-side definition compared against `matchesFilters`. -/
def yearSpecHolds (q : SearchQuery) (b : Book) : Bool :=
  (match q.year with
   | some v => b.year == some v
   | none => true) &&
  (match q.year_from, q.year_to with
   | some lo, some hi =>
     (match b.year with
      | some yv => decide (lo ≤ yv) && decide (yv ≤ hi)
      | none => false)
   | some lo, none =>
     (match b.year with
      | some yv => decide (lo ≤ yv)
      | none => false)
   | none, some hi =>
     (match b.year with
      | some yv => decide (yv ≤ hi)
      | none => false)
   | none, none => true)

instance {ε α : Type} [DecidableEq ε] [DecidableEq α] : DecidableEq (Except ε α)
  | .error a, .error b => if h : a = b then isTrue (by rw [h]) else isFalse (by simp [h])
  | .error _, .ok _ => isFalse (by simp)
  | .ok _, .error _ => isFalse (by simp)
  | .ok a, .ok b => if h : a = b then isTrue (by rw [h]) else isFalse (by simp [h])

lemma except_bind_ok {ε α β : Type} (x : Except ε α) (f : α → Except ε β) (b : β)
    (h : (x >>= f) = .ok b) : ∃ a, x = .ok a ∧ f a = .ok b := by
  cases x with
  | error e => simp [Bind.bind, Except.bind] at h
  | ok a => exact ⟨a, rfl, by simpa [Bind.bind, Except.bind] using h⟩

lemma validate_title_eq_ok {t s : String} (h : validate_title t = .ok s) :
    s = pyStrip t ∧ pyStrip t ≠ "" ∧ (pyStrip t).length ≤ 255 := by
  unfold validate_title at h
  split_ifs at h with h1 h2
  cases h
  exact ⟨rfl, h1, by omega⟩

lemma validate_author_eq_ok {a s : String} (h : validate_author a = .ok s) :
    s = pyStrip a ∧ pyStrip a ≠ "" ∧ (pyStrip a).length ≤ 255 := by
  unfold validate_author at h
  split_ifs at h with h1 h2
  cases h
  exact ⟨rfl, h1, by omega⟩

lemma validate_year_some_eq_ok {cy v : Int} {o : Option Int}
    (h : validate_year cy (some v) = .ok o) :
    o = some v ∧ 1000 ≤ v ∧ v ≤ cy + 2 := by
  simp only [validate_year] at h
  split at h
  · simp at h
  · cases h
    refine ⟨rfl, ?_, ?_⟩ <;> omega

lemma set_title_step_ok {b b1 : Book} {pt : PatchField String}
    (h : set_title_step b pt = .ok b1) :
    b1.author = b.author ∧ b1.year = b.year ∧ b1.id = b.id ∧
    (∀ v, pt = .setVal v → b1.title = pyStrip v) ∧
    ((pt = .unset ∨ pt = .setNone) → b1 = b) := by
  cases pt with
  | unset => cases h; simp
  | setNone => cases h; simp
  | setVal v =>
    cases hv : validate_title v with
    | error e => rw [set_title_step, hv] at h; simp [Except.map] at h
    | ok t' =>
      rw [set_title_step, hv] at h
      simp only [Except.map, Except.ok.injEq] at h
      subst h
      simpa using (validate_title_eq_ok hv).1

lemma set_author_step_ok {b b1 : Book} {pa : PatchField String}
    (h : set_author_step b pa = .ok b1) :
    b1.title = b.title ∧ b1.year = b.year ∧ b1.id = b.id ∧
    (∀ v, pa = .setVal v → b1.author = pyStrip v) ∧
    ((pa = .unset ∨ pa = .setNone) → b1 = b) := by
  cases pa with
  | unset => cases h; simp
  | setNone => cases h; simp
  | setVal v =>
    cases hv : validate_author v with
    | error e => rw [set_author_step, hv] at h; simp [Except.map] at h
    | ok a' =>
      rw [set_author_step, hv] at h
      simp only [Except.map, Except.ok.injEq] at h
      subst h
      simpa using (validate_author_eq_ok hv).1

lemma set_year_step_ok {cy : Int} {b b1 : Book} {py : PatchField Int}
    (h : set_year_step cy b py = .ok b1) :
    b1.title = b.title ∧ b1.author = b.author ∧ b1.id = b.id ∧
    (∀ v, py = .setVal v → b1.year = some v) ∧
    ((py = .unset ∨ py = .setNone) → b1 = b) := by
  cases py with
  | unset => cases h; simp
  | setNone => cases h; simp
  | setVal v =>
    cases hv : validate_year cy (some v) with
    | error e => rw [set_year_step, hv] at h; simp [Except.map] at h
    | ok y' =>
      rw [set_year_step, hv] at h
      simp only [Except.map, Except.ok.injEq] at h
      subst h
      simpa using (validate_year_some_eq_ok hv).1

lemma apply_patch_ok {cy : Int} {b b' : Book} {p : BookUpdate}
    (h : apply_patch cy b p = .ok b') :
    ∃ b1 b2, set_title_step b p.title = .ok b1 ∧
      set_author_step b1 p.author = .ok b2 ∧
      set_year_step cy b2 p.year = .ok b' := by
  unfold apply_patch at h
  obtain ⟨b1, h1, h⟩ := except_bind_ok _ _ _ h
  obtain ⟨b2, h2, h⟩ := except_bind_ok _ _ _ h
  obtain ⟨b3, h3, h⟩ := except_bind_ok _ _ _ h
  simp only [pure, Except.pure, Except.ok.injEq] at h
  exact ⟨b1, b2, h1, h2, h ▸ h3⟩

lemma update_book_ok {cy : Int} {db db' : Store} {bid : Nat} {p : BookUpdate} {b' : Book}
    (h : update_book cy db bid p = (db', .ok (some b'))) :
    ∃ b, get_book db bid = some b ∧ apply_patch cy b p = .ok b' ∧
      db' = ⟨db.rows.map (fun c => if c.id == bid then b' else c)⟩ := by
  unfold update_book at h
  cases hg : get_book db bid with
  | none => rw [hg] at h; simp at h
  | some b =>
    rw [hg] at h
    simp only [] at h
    cases ha : apply_patch cy b p with
    | error e => rw [ha] at h; simp at h
    | ok b2 =>
      rw [ha] at h
      simp only [Prod.mk.injEq, Except.ok.injEq, Option.some.injEq] at h
      obtain ⟨hdb, hb⟩ := h
      subst hb
      exact ⟨b, rfl, ha, hdb.symm⟩

/-- C2: for every `total ≥ 0` and `page_size ∈ [1, 100]`, the plain
listing path (`main.py` line 136) and the search path (`main.py` line
303) both report `total_pages = ⌈total / page_size⌉` (ceiling
division), and in particular both report `0` when `total = 0`. -/
theorem total_pages_paths_agree (total page_size : Nat)
    (h1 : 1 ≤ page_size) (h2 : page_size ≤ 100) :
    total_pages_list total page_size = total ⌈/⌉ page_size ∧
    total_pages_search total page_size = total ⌈/⌉ page_size ∧
    (total = 0 →
      total_pages_list total page_size = 0 ∧ total_pages_search total page_size = 0) := by
  have hceil : total ⌈/⌉ page_size = (total + page_size - 1) / page_size :=
    Nat.ceilDiv_eq_add_pred_div total page_size
  refine ⟨hceil.symm, ?_, ?_⟩
  · unfold total_pages_search
    split_ifs with h
    · exact hceil.symm
    · have ht : total = 0 := by omega
      subst ht
      simp
  · intro ht
    subst ht
    refine ⟨?_, by unfold total_pages_search; simp⟩
    unfold total_pages_list
    have hlt : page_size - 1 < page_size := by omega
    simpa using Nat.div_eq_of_lt hlt

/-- Witness for C2 at the spec's own example `total = 25`,
`page_size = 10`. -/
theorem total_pages_paths_agree_witness :
    (1 ≤ 10 ∧ 10 ≤ 100) ∧
    (total_pages_list 25 10 = 25 ⌈/⌉ 10 ∧ total_pages_search 25 10 = 25 ⌈/⌉ 10 ∧
      (25 = 0 → total_pages_list 25 10 = 0 ∧ total_pages_search 25 10 = 0)) :=
  ⟨⟨by decide, by decide⟩, total_pages_paths_agree 25 10 (by decide) (by decide)⟩

/-- C1 counterexample: a patch that explicitly clears `year` (field
present as `null`) passes the pydantic parse, but
`crud.BookCRUD.update_book` skips it (`if value is not None`), so the
stored book keeps `year = 2000` instead of ending with no year. -/
theorem patch_clear_year_cex :
    mkBookUpdate 2025 .unset .unset .setNone
      = .ok ⟨.unset, .unset, .setNone⟩ ∧
    update_book 2025 ⟨[⟨1, "T", "A", some 2000⟩]⟩ 1 ⟨.unset, .unset, .setNone⟩
      = (⟨[⟨1, "T", "A", some 2000⟩]⟩, .ok (some ⟨1, "T", "A", some 2000⟩)) ∧
    (⟨1, "T", "A", some 2000⟩ : Book).year ≠ none := by decide

/-- C1 amended: on a successful update of an existing book, a field
supplied with a (non-null) value is validated and replaces the stored
value (strings stripped, `year` as given), while a field that is absent
from the patch *or explicitly supplied as null* leaves the stored value
unchanged — so a patch cannot clear `year`. -/
theorem update_patch_semantics (cy : Int) (db db' : Store) (bid : Nat)
    (p : BookUpdate) (b b' : Book)
    (hget : get_book db bid = some b)
    (hok : update_book cy db bid p = (db', .ok (some b'))) :
    b'.id = b.id ∧
    (∀ v, p.title = .setVal v → b'.title = pyStrip v) ∧
    ((p.title = .unset ∨ p.title = .setNone) → b'.title = b.title) ∧
    (∀ v, p.author = .setVal v → b'.author = pyStrip v) ∧
    ((p.author = .unset ∨ p.author = .setNone) → b'.author = b.author) ∧
    (∀ v, p.year = .setVal v → b'.year = some v) ∧
    ((p.year = .unset ∨ p.year = .setNone) → b'.year = b.year) := by
  obtain ⟨b0, hg0, hap, _⟩ := update_book_ok hok
  rw [hget] at hg0
  cases hg0
  obtain ⟨b1, b2, h1, h2, h3⟩ := apply_patch_ok hap
  obtain ⟨t_author, t_year, t_id, t_set, t_skip⟩ := set_title_step_ok h1
  obtain ⟨a_title, a_year, a_id, a_set, a_skip⟩ := set_author_step_ok h2
  obtain ⟨y_title, y_author, y_id, y_set, y_skip⟩ := set_year_step_ok h3
  refine ⟨(y_id.trans a_id).trans t_id, ?_, ?_, ?_, ?_, y_set, ?_⟩
  · intro v hv
    exact (y_title.trans a_title).trans (t_set v hv)
  · intro hs
    exact (y_title.trans a_title).trans (congrArg Book.title (t_skip hs))
  · intro v hv
    exact y_author.trans (a_set v hv)
  · intro hs
    exact y_author.trans ((congrArg Book.author (a_skip hs)).trans t_author)
  · intro hs
    exact (congrArg Book.year (y_skip hs)).trans (a_year.trans t_year)

/-- Witness for C1's amended theorem: a concrete update supplying a new
title (stored stripped) and an explicit `null` year (stored year
unchanged). -/
theorem update_patch_semantics_witness :
    (⟨1, "New", "A", some 2000⟩ : Book).year
      = (⟨1, "T", "A", some 2000⟩ : Book).year :=
  (update_patch_semantics 2025 ⟨[⟨1, "T", "A", some 2000⟩]⟩
    ⟨[⟨1, "New", "A", some 2000⟩]⟩ 1 ⟨.setVal " New ", .unset, .setNone⟩
    ⟨1, "T", "A", some 2000⟩ ⟨1, "New", "A", some 2000⟩
    (by decide) (by decide)).2.2.2.2.2.2 (Or.inr rfl)

/-- C3: for an existing book, a patch whose content fails validation
fails the update with a validation error and leaves the committed store
unchanged: a pydantic-rejected body reaches no database code, and a
`ValueError` inside the `setattr` loop aborts before `db.commit()`, so
no partial write is observable. -/
theorem update_invalid_patch_no_write (cy : Int) (db : Store) (bid : Nat)
    (t a : PatchField String) (y : PatchField Int) (b : Book) (e : ValidationError)
    (hex : get_book db bid = some b)
    (hfail : mkBookUpdate cy t a y = .error e) :
    update_endpoint cy db bid t a y = (db, .error e) ∧
    (∀ p e', apply_patch cy b p = .error e' →
      update_book cy db bid p = (db, .error e')) := by
  constructor
  · unfold update_endpoint
    rw [hfail]
  · intro p e' hp
    unfold update_book
    rw [hex]
    simp only []
    rw [hp]

/-- Witness for C3 at the claim's example: a valid title together with
an out-of-range year (999). -/
theorem update_invalid_patch_no_write_witness :
    update_endpoint 2025 ⟨[⟨1, "T", "A", some 2000⟩]⟩ 1 (.setVal "T2") .unset
      (.setVal 999)
      = (⟨[⟨1, "T", "A", some 2000⟩]⟩,
        .error ⟨.year, "Year must be between 1000 and currentYear + 2"⟩) :=
  (update_invalid_patch_no_write 2025 ⟨[⟨1, "T", "A", some 2000⟩]⟩ 1 (.setVal "T2")
    .unset (.setVal 999) ⟨1, "T", "A", some 2000⟩
    ⟨.year, "Year must be between 1000 and currentYear + 2"⟩
    (by decide) (by decide)).1

/-- C7: a successful update whose patch supplies only `author` leaves
the stored `title` and `year` exactly as they were. -/
theorem update_author_only_frame (cy : Int) (db db' : Store) (bid : Nat)
    (v : String) (b b' : Book)
    (hget : get_book db bid = some b)
    (hok : update_book cy db bid ⟨.unset, .setVal v, .unset⟩ = (db', .ok (some b'))) :
    b'.title = b.title ∧ b'.year = b.year := by
  obtain ⟨b0, hg0, hap, _⟩ := update_book_ok hok
  rw [hget] at hg0
  cases hg0
  obtain ⟨b1, b2, h1, h2, h3⟩ := apply_patch_ok hap
  obtain ⟨t_author, t_year, t_id, t_set, t_skip⟩ := set_title_step_ok h1
  obtain ⟨a_title, a_year, a_id, a_set, a_skip⟩ := set_author_step_ok h2
  obtain ⟨y_title, y_author, y_id, y_set, y_skip⟩ := set_year_step_ok h3
  have hb1 : b1 = b := t_skip (Or.inl rfl)
  have hb2 : b' = b2 := y_skip (Or.inl rfl)
  constructor
  · rw [hb2, a_title, hb1]
  · rw [hb2, a_year, hb1]

/-- Witness for C7: updating only the author of a stored book. -/
theorem update_author_only_frame_witness :
    (⟨1, "T", "X", some 2000⟩ : Book).title = (⟨1, "T", "A", some 2000⟩ : Book).title ∧
    (⟨1, "T", "X", some 2000⟩ : Book).year = (⟨1, "T", "A", some 2000⟩ : Book).year :=
  update_author_only_frame 2025 ⟨[⟨1, "T", "A", some 2000⟩]⟩
    ⟨[⟨1, "T", "X", some 2000⟩]⟩ 1 "X" ⟨1, "T", "A", some 2000⟩
    ⟨1, "T", "X", some 2000⟩ (by decide) (by decide)

/-- C9: `get_books` returns the rows ordered by ascending id, offset by
`skip` and bounded by `limit` (at most `limit` items, none when
`limit = 0`), and the reported total is the full row count, independent
of the window. -/
theorem get_books_spec (db : Store) (skip limit : Nat) :
    (get_books db skip limit).2 = db.rows.length ∧
    (get_books db skip limit).1.length ≤ limit ∧
    (limit = 0 → (get_books db skip limit).1 = []) ∧
    List.Sorted byId (get_books db skip limit).1 ∧
    (get_books db skip limit).1 = ((sortById db.rows).drop skip).take limit ∧
    List.Sorted byId (sortById db.rows) ∧
    (sortById db.rows).Perm db.rows := by
  have hs : List.Sorted byId (sortById db.rows) :=
    List.sorted_insertionSort byId db.rows
  have hsub : List.Sublist (((sortById db.rows).drop skip).take limit) (sortById db.rows) :=
    (List.take_sublist _ _).trans (List.drop_sublist _ _)
  refine ⟨rfl, ?_, ?_, ?_, rfl, hs, List.perm_insertionSort byId db.rows⟩
  · simp [get_books] 
  · intro h
    simp [get_books, h]
  · exact List.Pairwise.sublist hsub hs

/-- Witness for C9 on a concrete two-row store with `limit = 0`. -/
theorem get_books_spec_witness :
    (get_books ⟨[⟨2, "B", "b", none⟩, ⟨1, "A", "a", none⟩]⟩ 0 0).2 = 2 ∧
    (get_books ⟨[⟨2, "B", "b", none⟩, ⟨1, "A", "a", none⟩]⟩ 0 0).1 = [] := by
  have h := get_books_spec ⟨[⟨2, "B", "b", none⟩, ⟨1, "A", "a", none⟩]⟩ 0 0
  exact ⟨by simpa using h.1, h.2.2.1 rfl⟩

/-- C10: a `title` or `author` criterion supplied as the empty string
is falsy in the `if search_query.title:` guards of
`crud.BookCRUD.search_books`, so the search returns exactly what it
returns with the criterion omitted. -/
theorem empty_text_criterion_no_constraint (db : Store) (q : SearchQuery) :
    search_books db { q with title := some "" }
      = search_books db { q with title := none } ∧
    search_books db { q with author := some "" }
      = search_books db { q with author := none } := by
  have ht : matchesFilters { q with title := some "" }
      = matchesFilters { q with title := none } := by
    funext b
    simp [matchesFilters, truthyStr]
  have ha : matchesFilters { q with author := some "" }
      = matchesFilters { q with author := none } := by
    funext b
    simp [matchesFilters, truthyStr]
  constructor <;> simp [search_books, ht, ha]

/-- The accumulator of the running maximum in `nextId` only grows. -/
lemma foldl_max_ge_acc :
    ∀ (l : List Book) (acc : Nat), acc ≤ l.foldl (fun m b => max m b.id) acc := by
  intro l
  induction l with
  | nil => intro acc; exact Nat.le_refl acc
  | cons x xs ih =>
    intro acc
    exact le_trans (Nat.le_max_left acc x.id) (ih (max acc x.id))

/-- Every stored id is bounded by the running maximum of `nextId`. -/
lemma mem_le_foldl_max :
    ∀ (l : List Book) (acc : Nat) (c : Book), c ∈ l →
      c.id ≤ l.foldl (fun m b => max m b.id) acc := by
  intro l
  induction l with
  | nil => intro acc c hc; cases hc
  | cons x xs ih =>
    intro acc c hc
    rcases List.mem_cons.mp hc with rfl | hc
    · exact le_trans (Nat.le_max_right acc c.id) (foldl_max_ge_acc xs (max acc c.id))
    · exact ih (max acc x.id) c hc

/-- C4 counterexample: the `books` table is a SQLite rowid table (no
`AUTOINCREMENT` keyword), so after deleting the row holding the largest
id, the next create reassigns that id.  The history
create, create, delete 2, create assigns ids 1, 2, 2: the third create
returns an id that was previously assigned and then deleted, and the
assigned-id sequence is neither unique nor strictly increasing. -/
theorem id_reuse_after_delete_cex :
    (runOps 2025 Store.empty
      [.create "A" "X" none, .create "B" "Y" none, .delete 2,
       .create "C" "Z" none]).2 = [1, 2, 2] ∧
    ¬ ([1, 2, 2] : List Nat).Nodup := by decide

/-- C4 amended: each successful create assigns
`nextId = max(stored ids) + 1`, which is strictly greater than every id
currently stored — so ids are unique among the stored rows at all
times, and strictly increase as long as the row with the greatest id is
never deleted; only deleting that row frees its id for reuse. -/
theorem create_id_fresh_among_stored (cy : Int) (db db' : Store) (t a : String)
    (y : Option Int) (bk : Book)
    (hok : create_book cy db t a y = (db', .ok bk)) :
    bk.id = nextId db ∧ (∀ c ∈ db.rows, c.id < bk.id) ∧
    db'.rows = db.rows ++ [bk] ∧
    ((db.rows.map Book.id).Nodup → (db'.rows.map Book.id).Nodup) := by
  unfold create_book at hok
  cases hv : validate_new cy t a y with
  | error e => rw [hv] at hok; simp at hok
  | ok r =>
    obtain ⟨t', a', y'⟩ := r
    rw [hv] at hok
    simp only [Prod.mk.injEq, Except.ok.injEq] at hok
    obtain ⟨hdb, hbk⟩ := hok
    subst hbk
    subst hdb
    refine ⟨rfl, ?_, rfl, ?_⟩
    · intro c hc
      show c.id < nextId db
      unfold nextId
      exact Nat.lt_succ_of_le (mem_le_foldl_max db.rows 0 c hc)
    · intro hnd
      simp only [List.map_append, List.map_cons, List.map_nil]
      refine List.Nodup.append hnd (List.nodup_singleton _) ?_
      intro x hx hx'
      simp only [List.mem_singleton] at hx'
      obtain ⟨c, hc, hcx⟩ := List.mem_map.mp hx
      subst hcx
      have hle := mem_le_foldl_max db.rows 0 c hc
      have hcontra : c.id = nextId db := hx'
      unfold nextId at hcontra
      omega

/-- Witness for C4's amended theorem: the first create on a singleton
store assigns id 2. -/
theorem create_id_fresh_among_stored_witness :
    (⟨2, "B", "Y", none⟩ : Book).id = nextId ⟨[⟨1, "A", "X", none⟩]⟩ ∧
    (∀ c ∈ (⟨[⟨1, "A", "X", none⟩]⟩ : Store).rows, c.id < (⟨2, "B", "Y", none⟩ : Book).id) ∧
    (⟨[⟨1, "A", "X", none⟩, ⟨2, "B", "Y", none⟩]⟩ : Store).rows
      = (⟨[⟨1, "A", "X", none⟩]⟩ : Store).rows ++ [⟨2, "B", "Y", none⟩] ∧
    (((⟨[⟨1, "A", "X", none⟩]⟩ : Store).rows.map Book.id).Nodup →
      (((⟨[⟨1, "A", "X", none⟩, ⟨2, "B", "Y", none⟩]⟩ : Store).rows.map Book.id).Nodup)) :=
  create_id_fresh_among_stored 2025 ⟨[⟨1, "A", "X", none⟩]⟩
    ⟨[⟨1, "A", "X", none⟩, ⟨2, "B", "Y", none⟩]⟩ "B" "Y" none ⟨2, "B", "Y", none⟩
    (by decide)

lemma except_bind_err {ε α β : Type} (x : Except ε α) (f : α → Except ε β) (e : ε)
    (h : (x >>= f) = .error e) :
    x = .error e ∨ ∃ a, x = .ok a ∧ f a = .error e := by
  cases x with
  | error e' => left; simpa [Bind.bind, Except.bind] using h
  | ok a => right; exact ⟨a, rfl, by simpa [Bind.bind, Except.bind] using h⟩

lemma validate_title_eq_err {t : String} {e : ValidationError}
    (h : validate_title t = .error e) :
    e.field = .title ∧ (pyStrip t = "" ∨ 255 < (pyStrip t).length) := by
  unfold validate_title at h
  split_ifs at h with h1 h2
  · cases h; exact ⟨rfl, Or.inl h1⟩
  · cases h; exact ⟨rfl, Or.inr (by omega)⟩

lemma validate_author_eq_err {a : String} {e : ValidationError}
    (h : validate_author a = .error e) :
    e.field = .author ∧ (pyStrip a = "" ∨ 255 < (pyStrip a).length) := by
  unfold validate_author at h
  split_ifs at h with h1 h2
  · cases h; exact ⟨rfl, Or.inl h1⟩
  · cases h; exact ⟨rfl, Or.inr (by omega)⟩

lemma validate_year_eq_err {cy : Int} {y : Option Int} {e : ValidationError}
    (h : validate_year cy y = .error e) :
    e.field = .year ∧ ∃ yr, y = some yr ∧ (yr < 1000 ∨ cy + 2 < yr) := by
  cases y with
  | none => simp [validate_year] at h
  | some yr =>
    simp only [validate_year] at h
    split_ifs at h with h1
    cases h
    exact ⟨rfl, yr, rfl, by omega⟩

lemma validate_title_ok_of {t : String} (h1 : pyStrip t ≠ "")
    (h2 : (pyStrip t).length ≤ 255) : validate_title t = .ok (pyStrip t) := by
  unfold validate_title
  rw [if_neg h1, if_neg (by omega)]

lemma validate_author_ok_of {a : String} (h1 : pyStrip a ≠ "")
    (h2 : (pyStrip a).length ≤ 255) : validate_author a = .ok (pyStrip a) := by
  unfold validate_author
  rw [if_neg h1, if_neg (by omega)]

lemma validate_year_ok_of {cy : Int} {y : Option Int}
    (h : ∀ yr, y = some yr → 1000 ≤ yr ∧ yr ≤ cy + 2) :
    validate_year cy y = .ok y := by
  cases y with
  | none => rfl
  | some yr =>
    obtain ⟨hl, hu⟩ := h yr rfl
    simp only [validate_year]
    rw [if_neg (by omega)]

lemma validate_title_err_of {t : String}
    (h : pyStrip t = "" ∨ 255 < (pyStrip t).length) :
    ∃ e, validate_title t = .error e ∧ e.field = .title := by
  unfold validate_title
  by_cases h1 : pyStrip t = ""
  · rw [if_pos h1]; exact ⟨_, rfl, rfl⟩
  · have h2 : 255 < (pyStrip t).length := by
      rcases h with h | h
      · exact absurd h h1
      · exact h
    rw [if_neg h1, if_pos (by omega)]; exact ⟨_, rfl, rfl⟩

lemma validate_author_err_of {a : String}
    (h : pyStrip a = "" ∨ 255 < (pyStrip a).length) :
    ∃ e, validate_author a = .error e ∧ e.field = .author := by
  unfold validate_author
  by_cases h1 : pyStrip a = ""
  · rw [if_pos h1]; exact ⟨_, rfl, rfl⟩
  · have h2 : 255 < (pyStrip a).length := by
      rcases h with h | h
      · exact absurd h h1
      · exact h
    rw [if_neg h1, if_pos (by omega)]; exact ⟨_, rfl, rfl⟩

lemma validate_year_err_of {cy yr : Int} (h : yr < 1000 ∨ cy + 2 < yr) :
    ∃ e, validate_year cy (some yr) = .error e ∧ e.field = .year := by
  simp only [validate_year]
  rw [if_pos (by omega)]
  exact ⟨_, rfl, rfl⟩

set_option maxRecDepth 4000 in
/-- C8 counterexample: a title of 256 characters is non-empty after
trimming and carries no year, yet create fails (length check), so
"empty title/author or out-of-range year" are not the only inputs
rejected by create. -/
theorem create_long_title_cex :
    pyStrip (String.mk (List.replicate 256 'a')) ≠ "" ∧
    (create_book 2025 Store.empty (String.mk (List.replicate 256 'a')) "A" none).2
      = .error ⟨.title, "Book title too long (max 255 characters)"⟩ := by
  constructor
  · decide
  · decide

/-- C8 amended: create fails exactly when the stripped title or author
is empty *or longer than 255 characters*, or a supplied year lies
outside `[1000, currentYear + 2]`; every error names the offending
field (the first failing one in the order title, author, year). -/
theorem create_validation_exact (cy : Int) (db : Store) (t a : String)
    (y : Option Int) :
    ((∃ e, (create_book cy db t a y).2 = .error e) ↔
      (pyStrip t = "" ∨ 255 < (pyStrip t).length ∨ pyStrip a = "" ∨
        255 < (pyStrip a).length ∨
        ∃ yr, y = some yr ∧ (yr < 1000 ∨ cy + 2 < yr))) ∧
    (∀ e, (create_book cy db t a y).2 = .error e →
      (e.field = .title ∧ (pyStrip t = "" ∨ 255 < (pyStrip t).length)) ∨
      (e.field = .author ∧ (pyStrip a = "" ∨ 255 < (pyStrip a).length)) ∨
      (e.field = .year ∧ ∃ yr, y = some yr ∧ (yr < 1000 ∨ cy + 2 < yr))) := by
  have hbr : ∀ e, (create_book cy db t a y).2 = .error e ↔
      validate_new cy t a y = .error e := by
    intro e
    unfold create_book
    cases hv : validate_new cy t a y with
    | error e' => simp
    | ok r =>
      obtain ⟨t', a', y'⟩ := r
      simp
  have hdec : ∀ e, validate_new cy t a y = .error e →
      validate_title t = .error e ∨
      (∃ t', validate_title t = .ok t' ∧ validate_author a = .error e) ∨
      (∃ t' a', validate_title t = .ok t' ∧ validate_author a = .ok a' ∧
        validate_year cy y = .error e) := by
    intro e h
    unfold validate_new at h
    rcases except_bind_err _ _ _ h with h1 | ⟨t', ht, h⟩
    · exact Or.inl h1
    rcases except_bind_err _ _ _ h with h2 | ⟨a', ha, h⟩
    · exact Or.inr (Or.inl ⟨t', ht, h2⟩)
    rcases except_bind_err _ _ _ h with h3 | ⟨y', hy, h⟩
    · exact Or.inr (Or.inr ⟨t', a', ht, ha, h3⟩)
    · simp [pure, Except.pure] at h
  have hfield : ∀ e, (create_book cy db t a y).2 = .error e →
      (e.field = .title ∧ (pyStrip t = "" ∨ 255 < (pyStrip t).length)) ∨
      (e.field = .author ∧ (pyStrip a = "" ∨ 255 < (pyStrip a).length)) ∨
      (e.field = .year ∧ ∃ yr, y = some yr ∧ (yr < 1000 ∨ cy + 2 < yr)) := by
    intro e h
    rcases hdec e ((hbr e).mp h) with h1 | ⟨t', ht, h2⟩ | ⟨t', a', ht, ha, h3⟩
    · exact Or.inl (validate_title_eq_err h1)
    · exact Or.inr (Or.inl (validate_author_eq_err h2))
    · exact Or.inr (Or.inr (validate_year_eq_err h3))
  refine ⟨⟨?_, ?_⟩, hfield⟩
  · rintro ⟨e, he⟩
    rcases hfield e he with ⟨-, h⟩ | ⟨-, h⟩ | ⟨-, h⟩
    · rcases h with h | h
      · exact Or.inl h
      · exact Or.inr (Or.inl h)
    · rcases h with h | h
      · exact Or.inr (Or.inr (Or.inl h))
      · exact Or.inr (Or.inr (Or.inr (Or.inl h)))
    · exact Or.inr (Or.inr (Or.inr (Or.inr h)))
  · intro hbad
    by_cases hTbad : pyStrip t = "" ∨ 255 < (pyStrip t).length
    · obtain ⟨e, he, -⟩ := validate_title_err_of hTbad
      refine ⟨e, (hbr e).mpr ?_⟩
      unfold validate_new
      simp [he, Bind.bind, Except.bind]
    · push_neg at hTbad
      have hT := validate_title_ok_of hTbad.1 (by omega)
      by_cases hAbad : pyStrip a = "" ∨ 255 < (pyStrip a).length
      · obtain ⟨e, he, -⟩ := validate_author_err_of hAbad
        refine ⟨e, (hbr e).mpr ?_⟩
        unfold validate_new
        simp [hT, he, Bind.bind, Except.bind]
      · push_neg at hAbad
        have hA := validate_author_ok_of hAbad.1 (by omega)
        rcases hbad with h | h | h | h | ⟨yr, hy, hr⟩
        · exact absurd h hTbad.1
        · exact absurd h (by omega)
        · exact absurd h hAbad.1
        · exact absurd h (by omega)
        · subst hy
          obtain ⟨e, he, -⟩ := validate_year_err_of hr
          refine ⟨e, (hbr e).mpr ?_⟩
          unfold validate_new
          simp [hT, hA, he, Bind.bind, Except.bind]

/-- Witness for C8's amended theorem at the claim's own examples:
`("", "Author")` is rejected on the title and `("T", "A", 999)` on the
year. -/
theorem create_validation_exact_witness :
    (∀ e, (create_book 2025 Store.empty "" "Author" none).2 = .error e →
      (e.field = .title ∧ (pyStrip "" = "" ∨ 255 < (pyStrip "").length)) ∨
      (e.field = .author ∧ (pyStrip "Author" = "" ∨ 255 < (pyStrip "Author").length)) ∨
      (e.field = .year ∧ ∃ yr, (none : Option Int) = some yr ∧
        (yr < 1000 ∨ 2025 + 2 < yr))) ∧
    ((∃ e, (create_book 2025 Store.empty "T" "A" (some 999)).2 = .error e) ↔
      (pyStrip "T" = "" ∨ 255 < (pyStrip "T").length ∨ pyStrip "A" = "" ∨
        255 < (pyStrip "A").length ∨
        ∃ yr, (some 999 : Option Int) = some yr ∧ (yr < 1000 ∨ 2025 + 2 < yr))) :=
  ⟨(create_validation_exact 2025 Store.empty "" "Author" none).2,
   (create_validation_exact 2025 Store.empty "T" "A" (some 999)).1⟩

lemma leadsWith_iff (n : List Char) : ∀ s, leadsWith n s = true ↔ ∃ v, s = n ++ v := by
  induction n with
  | nil =>
    intro s
    simp [leadsWith]
  | cons x xs ih =>
    intro s
    cases s with
    | nil => simp [leadsWith]
    | cons c cs =>
      simp only [leadsWith, Bool.and_eq_true, beq_iff_eq, ih cs, List.cons_append,
        List.cons.injEq]
      constructor
      · rintro ⟨hx, v, hv⟩
        exact ⟨v, hx.symm, hv⟩
      · rintro ⟨v, hx, hv⟩
        exact ⟨hx.symm, v, hv⟩

lemma starMatch_congr {f g : List Char → Bool} (h : ∀ s, f s = g s) :
    ∀ t, starMatch f t = starMatch g t := by
  intro t
  induction t with
  | nil => simp [starMatch, h]
  | cons c cs ih => simp [starMatch, h, ih]

lemma starMatch_likeMatch_nil : ∀ s, starMatch (likeMatch []) s = true := by
  intro s
  induction s with
  | nil => rfl
  | cons c cs ih =>
    show (likeMatch [] (c :: cs) || starMatch (likeMatch []) cs) = true
    rw [ih]
    simp

lemma likeMatch_lit_pct :
    ∀ q : List Char, '%' ∉ q → '_' ∉ q →
      ∀ s, likeMatch (q ++ ['%']) s = leadsWith q s := by
  intro q
  induction q with
  | nil =>
    intro _ _ s
    simp only [List.nil_append, leadsWith]
    show likeMatch ('%' :: []) s = true
    simp only [likeMatch, reduceIte]
    exact starMatch_likeMatch_nil s
  | cons x xs ih =>
    intro h1 h2 s
    have hx1 : x ≠ '%' := fun h => h1 (h ▸ List.mem_cons_self x xs)
    have hx2 : x ≠ '_' := fun h => h2 (h ▸ List.mem_cons_self x xs)
    have ih' := ih (fun h => h1 (List.mem_cons_of_mem x h))
      (fun h => h2 (List.mem_cons_of_mem x h))
    cases s with
    | nil =>
      simp only [List.cons_append, likeMatch, hx1, hx2, if_false, leadsWith]
    | cons c cs =>
      simp only [List.cons_append, likeMatch, leadsWith]
      rw [if_neg hx1, if_neg hx2]
      show ((x == c) && likeMatch (xs ++ ['%']) cs) = ((x == c) && leadsWith xs cs)
      rw [ih' cs]

lemma starMatch_leads_iff (q : List Char) :
    ∀ t, starMatch (leadsWith q) t = true ↔ ∃ u v, t = u ++ q ++ v := by
  intro t
  induction t with
  | nil =>
    simp only [starMatch, leadsWith_iff]
    constructor
    · rintro ⟨v, hv⟩
      exact ⟨[], v, by simpa using hv⟩
    · rintro ⟨u, v, huv⟩
      rcases List.append_eq_nil.mp huv.symm with ⟨h1, hv⟩
      rcases List.append_eq_nil.mp h1 with ⟨hu, hq⟩
      exact ⟨[], by simp [hq]⟩
  | cons c cs ih =>
    simp only [starMatch, Bool.or_eq_true, leadsWith_iff, ih]
    constructor
    · rintro (⟨v, hv⟩ | ⟨u, v, huv⟩)
      · exact ⟨[], v, by simpa using hv⟩
      · exact ⟨c :: u, v, by simp [huv]⟩
    · rintro ⟨u, v, huv⟩
      cases u with
      | nil => exact Or.inl ⟨v, by simpa using huv⟩
      | cons x u' =>
        simp only [List.cons_append, List.cons.injEq] at huv
        exact Or.inr ⟨u', v, huv.2⟩

lemma asciiLower_pct_iff (c : Char) : asciiLower c = '%' ↔ c = '%' := by
  unfold asciiLower
  cases hf : upperToLower.find? (fun p => p.1 == c) with
  | none => exact Iff.rfl
  | some p =>
    have hpc := List.find?_some hf
    have hmem := List.mem_of_find?_eq_some hf
    simp only [beq_iff_eq] at hpc
    subst hpc
    fin_cases hmem <;> decide

lemma asciiLower_us_iff (c : Char) : asciiLower c = '_' ↔ c = '_' := by
  unfold asciiLower
  cases hf : upperToLower.find? (fun p => p.1 == c) with
  | none => exact Iff.rfl
  | some p =>
    have hpc := List.find?_some hf
    have hmem := List.mem_of_find?_eq_some hf
    simp only [beq_iff_eq] at hpc
    subst hpc
    fin_cases hmem <;> decide

lemma lowerL_wildcard_free {q : List Char} (h1 : '%' ∉ q) (h2 : '_' ∉ q) :
    '%' ∉ lowerL q ∧ '_' ∉ lowerL q := by
  constructor <;> intro hmem
  · obtain ⟨c, hc, hlc⟩ := List.mem_map.mp hmem
    exact h1 ((asciiLower_pct_iff c).mp hlc ▸ hc)
  · obtain ⟨c, hc, hlc⟩ := List.mem_map.mp hmem
    exact h2 ((asciiLower_us_iff c).mp hlc ▸ hc)

/-- The SQL filter `lower(field) LIKE lower('%crit%')` coincides with
case-folded substring containment whenever the criterion contains no
`LIKE` wildcard. -/
lemma ilikeContains_iff (crit field : String) (h1 : '%' ∉ crit.data)
    (h2 : '_' ∉ crit.data) :
    ilikeContains crit field = true ↔
      ∃ u v, lowerL field.data = u ++ lowerL crit.data ++ v := by
  unfold ilikeContains
  have hpct : asciiLower '%' = '%' := by decide
  have hpat : lowerL ('%' :: crit.data ++ ['%'])
      = '%' :: (lowerL crit.data ++ ['%']) := by
    simp [lowerL, hpct]
  rw [hpat]
  have hwf := lowerL_wildcard_free h1 h2
  show likeMatch ('%' :: (lowerL crit.data ++ ['%'])) (lowerL field.data) = true ↔ _
  simp only [likeMatch, if_pos rfl]
  rw [starMatch_congr (likeMatch_lit_pct _ hwf.1 hwf.2)]
  exact starMatch_leads_iff _ _

/-- C5 counterexample: the criterion string `"a_c"` contains the `LIKE`
single-character wildcard `_`, so the search predicate matches the
stored author `"abc"` even though `"a_c"` is not a substring of `"abc"`
under any case folding — matching is not equivalent to substring
containment for every criterion string. -/
theorem ilike_wildcard_cex :
    matchesFilters { author := some "a_c" } ⟨1, "T", "abc", none⟩ = true ∧
    ¬ ∃ u v, lowerL ("abc".data) = u ++ lowerL ("a_c".data) ++ v := by
  constructor
  · decide
  · intro hex
    have h := (starMatch_leads_iff (lowerL "a_c".data) (lowerL "abc".data)).mpr hex
    have hfalse : starMatch (leadsWith (lowerL "a_c".data)) (lowerL "abc".data)
        = false := by decide
    rw [h] at hfalse
    cases hfalse

/-- C5 amended: for every stored book and every non-empty criterion
string free of the SQL `LIKE` wildcards `%` and `_`, the search
predicate with that single criterion matches the book iff the stored
field contains the criterion as a substring under ASCII case folding
(SQLite's `lower`). -/
theorem search_text_criterion_substring (b : Book) (crit : String)
    (hne : crit ≠ "") (h1 : '%' ∉ crit.data) (h2 : '_' ∉ crit.data) :
    (matchesFilters { title := some crit } b = true ↔
      ∃ u v, lowerL b.title.data = u ++ lowerL crit.data ++ v) ∧
    (matchesFilters { author := some crit } b = true ↔
      ∃ u v, lowerL b.author.data = u ++ lowerL crit.data ++ v) := by
  constructor
  · rw [← ilikeContains_iff crit b.title h1 h2]
    simp [matchesFilters, truthyStr, truthyInt, hne]
  · rw [← ilikeContains_iff crit b.author h1 h2]
    simp [matchesFilters, truthyStr, truthyInt, hne]

/-- Witness for C5's amended theorem at the spec's example: author
criterion `"tolstoy"` against the stored author `"Leo Tolstoy"`. -/
theorem search_text_criterion_substring_witness :
    ("tolstoy" ≠ "" ∧ '%' ∉ "tolstoy".data ∧ '_' ∉ "tolstoy".data) ∧
    (matchesFilters { author := some "tolstoy" }
        ⟨1, "War and Peace", "Leo Tolstoy", some 1869⟩ = true ↔
      ∃ u v, lowerL ("Leo Tolstoy".data)
        = u ++ lowerL ("tolstoy".data) ++ v) :=
  ⟨⟨by decide, by decide, by decide⟩,
   (search_text_criterion_substring ⟨1, "War and Peace", "Leo Tolstoy", some 1869⟩
     "tolstoy" (by decide) (by decide) (by decide)).2⟩

/-- C6 counterexample: `year_to` has no lower bound in
`schemas.SearchQuery`, so `year_to = 0` is a valid query value; it is
falsy, so `if search_query.year_to:` skips the range filter and a book
with year 1500 matches, although the claim requires `year ≤ year_to`
(1500 ≤ 0 fails). -/
theorem year_to_zero_ignored_cex :
    SearchQuery.Valid { year_to := some 0 } ∧
    matchesFilters { year_to := some 0 } ⟨1, "T", "A", some 1500⟩ = true ∧
    yearSpecHolds { year_to := some 0 } ⟨1, "T", "A", some 1500⟩ = false := by
  refine ⟨⟨?_, by decide, by decide, by decide⟩, by decide, by decide⟩
  intro v h
  cases h

/-- C6 amended: for every pydantic-valid query whose `year` and
`year_to` criteria, when present, are nonzero (zero is falsy in Python
and treated as absent), the search predicate factors as the title and
author filters ANDed with exactly the year composition the spec states:
exact `year` must match when given, both bounds give
`year_from ≤ year ≤ year_to`, a single bound gives the one-sided
comparison, and the exact-year and range predicates are ANDed. -/
theorem search_year_criteria_compose (q : SearchQuery) (b : Book)
    (hvalid : q.Valid) (hto : q.year_to ≠ some 0) (hy : q.year ≠ some 0) :
    matchesFilters q b =
      ((if truthyStr q.title then ilikeContains (q.title.getD "") b.title else true) &&
       (if truthyStr q.author then ilikeContains (q.author.getD "") b.author else true) &&
       yearSpecHolds q b) := by
  obtain ⟨hf, -, -, -⟩ := hvalid
  have hYear : (if truthyInt q.year then b.year == some (q.year.getD 0) else true)
      = (match q.year with
         | some v => b.year == some v
         | none => true) := by
    cases hqy : q.year with
    | none => simp [truthyInt]
    | some v =>
      have hv : v ≠ 0 := fun h => hy (by rw [hqy, h])
      simp [truthyInt, hv]
  have hRange : (if truthyInt q.year_from && truthyInt q.year_to then
      (match b.year with
       | some y => decide (q.year_from.getD 0 ≤ y) && decide (y ≤ q.year_to.getD 0)
       | none => false)
    else if truthyInt q.year_from then
      (match b.year with
       | some y => decide (q.year_from.getD 0 ≤ y)
       | none => false)
    else if truthyInt q.year_to then
      (match b.year with
       | some y => decide (y ≤ q.year_to.getD 0)
       | none => false)
    else true)
      = (match q.year_from, q.year_to with
         | some lo, some hi =>
           (match b.year with
            | some yv => decide (lo ≤ yv) && decide (yv ≤ hi)
            | none => false)
         | some lo, none =>
           (match b.year with
            | some yv => decide (lo ≤ yv)
            | none => false)
         | none, some hi =>
           (match b.year with
            | some yv => decide (yv ≤ hi)
            | none => false)
         | none, none => true) := by
    cases hqf : q.year_from with
    | none =>
      cases hqt : q.year_to with
      | none => simp [truthyInt]
      | some hi =>
        have hhi : hi ≠ 0 := fun h => hto (by rw [hqt, h])
        simp [truthyInt, hhi]
    | some lo =>
      have hlo : lo ≠ 0 := by
        have := hf lo hqf
        omega
      cases hqt : q.year_to with
      | none => simp [truthyInt, hlo]
      | some hi =>
        have hhi : hi ≠ 0 := fun h => hto (by rw [hqt, h])
        simp [truthyInt, hlo, hhi]
  unfold matchesFilters yearSpecHolds
  rw [hYear, hRange, Bool.and_assoc]

/-- Witness for C6's amended theorem: exact year and both range bounds
supplied together on a book with year 1869. -/
theorem search_year_criteria_compose_witness :
    matchesFilters { year := some 1869, year_from := some 1860, year_to := some 1880 }
        ⟨1, "T", "A", some 1869⟩ =
      ((if truthyStr (none : Option String) then
          ilikeContains ((none : Option String).getD "") "T" else true) &&
       (if truthyStr (none : Option String) then
          ilikeContains ((none : Option String).getD "") "A" else true) &&
       yearSpecHolds { year := some 1869, year_from := some 1860, year_to := some 1880 }
         ⟨1, "T", "A", some 1869⟩) :=
  search_year_criteria_compose
    { year := some 1869, year_from := some 1860, year_to := some 1880 }
    ⟨1, "T", "A", some 1869⟩
    ⟨fun v h => by cases h; decide, by decide, by decide, by decide⟩
    (by decide) (by decide)

end BookApi
